import Mathlib

/-!
Verification of the AC_AutoTune library (libraries/AC_AutoTune/AC_AutoTune.h).

The repository snapshot contains only the class header; the only method with a
body in the source is `reset()`.  Every other operation (gain loading, the
tuning state machine, the level checker, the dwell-response estimator, the
pilot-override announcer and the dwell telemetry buffers) is therefore
modelled from the specification, as marked by the doc comments below.
Machine floats are idealised as rationals (state and gains) or reals (the
sine-correlation estimator); machine integers are Nat/Int.
-/

namespace AC_AutoTune

/-- Axis that can be tuned (enum AxisType in AC_AutoTune.h). -/
inductive AxisType where
  | ROLL
  | PITCH
  | YAW
deriving DecidableEq

/-- Autotune modes, the high level states (enum TuneMode in AC_AutoTune.h). -/
inductive TuneMode where
  | UNINITIALISED
  | TUNING
  | SUCCESS
  | FAILED
deriving DecidableEq

/-- Steps performed while in the tuning mode (enum StepType in AC_AutoTune.h). -/
inductive StepType where
  | WAITING_FOR_LEVEL
  | TESTING
  | UPDATE_GAINS
deriving DecidableEq

/-- Mini steps performed while in Tuning mode (enum TuneType in AC_AutoTune.h). -/
inductive TuneType where
  | RD_UP
  | RD_DOWN
  | RP_UP
  | RP_DOWN
  | RFF_UP
  | RFF_DOWN
  | SP_UP
  | SP_DOWN
  | MAX_GAINS
  | TUNE_COMPLETE
deriving DecidableEq

/-- Kinds of level problems (enum struct LevelIssue in AC_AutoTune.h). -/
inductive LevelIssue where
  | NONE
  | ANGLE_ROLL
  | ANGLE_PITCH
  | ANGLE_YAW
  | RATE_ROLL
  | RATE_PITCH
  | RATE_YAW
deriving DecidableEq

/-- Types of gains to load (enum GainType in AC_AutoTune.h). -/
inductive GainType where
  | GAIN_ORIGINAL
  | GAIN_TEST
  | GAIN_INTRA_TEST
  | GAIN_TUNED
deriving DecidableEq

/-- AUTOTUNE_AXIS_BITMASK_ROLL / _PITCH / _YAW from AC_AutoTune.h:
the bit each axis occupies in the `axes_completed` bitmask. -/
def axis_bitmask : AxisType → Nat
  | .ROLL => 1
  | .PITCH => 2
  | .YAW => 4

/-- AUTOTUNE_SUCCESS_COUNT from AC_AutoTune.h: the number of successful
iterations needed to freeze at current gains. -/
def AUTOTUNE_SUCCESS_COUNT : Int := 4

/-- AUTOTUNE_ANNOUNCE_INTERVAL_MS from AC_AutoTune.h. -/
def AUTOTUNE_ANNOUNCE_INTERVAL_MS : Nat := 2000

/-- AUTOTUNE_DWELL_CYCLES from AC_AutoTune.h. -/
def AUTOTUNE_DWELL_CYCLES : Nat := 6

/-- A full set of controller gains, shaped after the backup fields
`orig_roll_rp .. orig_bf_feedforward` of AC_AutoTune.h (lines 311-314).
The same shape describes the attitude controller's live parameters. -/
structure GainSet where
  roll_rp : ℚ
  roll_ri : ℚ
  roll_rd : ℚ
  roll_rff : ℚ
  roll_fltt : ℚ
  roll_sp : ℚ
  roll_accel : ℚ
  pitch_rp : ℚ
  pitch_ri : ℚ
  pitch_rd : ℚ
  pitch_rff : ℚ
  pitch_fltt : ℚ
  pitch_sp : ℚ
  pitch_accel : ℚ
  yaw_rp : ℚ
  yaw_ri : ℚ
  yaw_rd : ℚ
  yaw_rff : ℚ
  yaw_rLPF : ℚ
  yaw_fltt : ℚ
  yaw_sp : ℚ
  yaw_accel : ℚ
  bf_feedforward : Bool
deriving DecidableEq

/-- The currently-being-tuned parameter values: the `tune_*` fields of
AC_AutoTune.h (lines 317-320). -/
structure TuneGains where
  roll_rp : ℚ
  roll_rd : ℚ
  roll_sp : ℚ
  roll_accel : ℚ
  pitch_rp : ℚ
  pitch_rd : ℚ
  pitch_sp : ℚ
  pitch_accel : ℚ
  yaw_rp : ℚ
  yaw_rLPF : ℚ
  yaw_sp : ℚ
  yaw_accel : ℚ
  roll_rff : ℚ
  pitch_rff : ℚ
  yaw_rd : ℚ
  yaw_rff : ℚ
deriving DecidableEq

/-- The `level_problem` structure of AC_AutoTune.h (lines 329-333). -/
structure LevelProblem where
  issue : LevelIssue
  maximum : ℚ
  current : ℚ
deriving DecidableEq

/-- The tuner state: the fields of class AC_AutoTune that the verified claims
are about, together with `live`, the attitude controller's live gain
parameters (the external shared state written by the gain loads). -/
structure AutoTuneState where
  mode : TuneMode
  pilot_override : Bool
  axis : AxisType
  positive_direction : Bool
  step : StepType
  tune_type : TuneType
  tune_seq : Fin 6 → TuneType
  tune_seq_curr : Nat
  axes_completed : Nat
  counter : Int
  orig : GainSet
  tune : TuneGains
  level_problem : LevelProblem
  last_pilot_override_warning : Nat
  live : GainSet
deriving DecidableEq

/-- `reset()` from AC_AutoTune.h lines 60-63 (the one method whose body is in
the header): `mode = UNINITIALISED; axes_completed = 0;`. -/
def reset (s : AutoTuneState) : AutoTuneState :=
  { s with mode := .UNINITIALISED, axes_completed := 0 }

/-- Claim C10: `reset()` sets `mode` to UNINITIALISED and `axes_completed` to 0
and changes nothing else: both gain snapshots held in fields (`orig_*`,
`tune_*`), the live controller gains, the tune sequence and its cursor, the
current axis, step, tune_type, counter, level problem and warning timestamp
are all left unchanged. -/
theorem reset_frame_effect (s : AutoTuneState) :
    (reset s).mode = .UNINITIALISED ∧
    (reset s).axes_completed = 0 ∧
    (reset s).orig = s.orig ∧
    (reset s).tune = s.tune ∧
    (reset s).live = s.live ∧
    (reset s).tune_seq = s.tune_seq ∧
    (reset s).tune_seq_curr = s.tune_seq_curr ∧
    (reset s).axis = s.axis ∧
    (reset s).step = s.step ∧
    (reset s).tune_type = s.tune_type ∧
    (reset s).counter = s.counter ∧
    (reset s).level_problem = s.level_problem ∧
    (reset s).last_pilot_override_warning = s.last_pilot_override_warning ∧
    (reset s).pilot_override = s.pilot_override ∧
    (reset s).positive_direction = s.positive_direction :=
  ⟨rfl, rfl, rfl, rfl, rfl, rfl, rfl, rfl, rfl, rfl, rfl, rfl, rfl, rfl, rfl⟩

/-- The vehicle-specific hooks of AC_AutoTune that are pure virtual in the
header (`get_intra_test_ri`, `get_tuned_ri`, `get_tuned_yaw_rd`), idealised as
data: a vehicle supplies the rate-I gain used between tests and the tuned
rate-I / yaw rate-D gains. -/
structure Vehicle where
  intra_test_ri : AxisType → ℚ
  tuned_ri : AxisType → ℚ
  tuned_yaw_rd : ℚ

/-- Modelled from the spec: `load_orig_gains()` (AC_AutoTune.h line 132-133,
body not in the snapshot) switches the live controller gains to the Original
snapshot (spec 4.5: the Gain Store swaps all tunable parameters of the live
controller to the named snapshot). -/
def load_orig_gains (s : AutoTuneState) : AutoTuneState :=
  { s with live := s.orig }

/-- Modelled from the spec: the full gain set denoted by the Test snapshot.
The `tune_*` fields overlay the corresponding live-controller parameters; the
parameters the tuner does not touch (rate I, filter cutoffs, feed-forward
enable) keep their Original values. -/
def test_gain_set (t : TuneGains) (base : GainSet) : GainSet :=
  { base with
    roll_rp := t.roll_rp, roll_rd := t.roll_rd, roll_sp := t.roll_sp,
    roll_accel := t.roll_accel, roll_rff := t.roll_rff,
    pitch_rp := t.pitch_rp, pitch_rd := t.pitch_rd, pitch_sp := t.pitch_sp,
    pitch_accel := t.pitch_accel, pitch_rff := t.pitch_rff,
    yaw_rp := t.yaw_rp, yaw_rLPF := t.yaw_rLPF, yaw_sp := t.yaw_sp,
    yaw_accel := t.yaw_accel, yaw_rd := t.yaw_rd, yaw_rff := t.yaw_rff }

/-- Modelled from the spec: `load_test_gains()` (AC_AutoTune.h line 141-142,
body not in the snapshot) switches the live controller to the gains for the
next test, from the `tune_*` fields. -/
def load_test_gains (s : AutoTuneState) : AutoTuneState :=
  { s with live := test_gain_set s.tune s.orig }

/-- Modelled from the spec: the IntraTest gain set, a softer variant of the
Original gains used between tests; per the header's `get_intra_test_ri` hook it
differs from Original in the rate-I gains, which the vehicle supplies. -/
def intra_test_gain_set (v : Vehicle) (g : GainSet) : GainSet :=
  { g with
    roll_ri := v.intra_test_ri .ROLL,
    pitch_ri := v.intra_test_ri .PITCH,
    yaw_ri := v.intra_test_ri .YAW }

/-- Modelled from the spec: `load_intra_test_gains()` (AC_AutoTune.h line
138-139, body not in the snapshot) switches the live controller to the gains
used between tests. -/
def load_intra_test_gains (v : Vehicle) (s : AutoTuneState) : AutoTuneState :=
  { s with live := intra_test_gain_set v s.orig }

/-- Modelled from the spec: `backup_gains_and_initialise()` (AC_AutoTune.h line
129-130, body not in the snapshot).  Spec 4.1 Entry: backs up Original gains
from the live controller, installs the tune-type sequence, sets mode = Tuning
and step = WaitingForLevel, and starts the sequence from its first entry.
`axes_completed` is not touched; only `reset()` clears it. -/
def backup_gains_and_initialise (seq : Fin 6 → TuneType) (first_axis : AxisType)
    (s : AutoTuneState) : AutoTuneState :=
  { s with
    orig := s.live,
    mode := .TUNING,
    step := .WAITING_FOR_LEVEL,
    axis := first_axis,
    tune_seq := seq,
    tune_seq_curr := 0,
    tune_type := seq 0,
    counter := 0 }

/-- Modelled from the spec: `stop()` (AC_AutoTune.h line 56-57, body not in the
snapshot): "stop tune, reverting gains".  Spec 5: stop() is callable from any
state and leaves the live gains equal to Original and the mode
Uninitialised-equivalent, via `reset()`. -/
def stop (s : AutoTuneState) : AutoTuneState :=
  reset (load_orig_gains s)

/-- Reading the installed tune sequence at a cursor position; positions past
the 6-entry array are treated as TUNE_COMPLETE (the sequencer never moves the
cursor past the terminating TUNE_COMPLETE entry). -/
def seq_at (s : AutoTuneState) (i : Nat) : TuneType :=
  if h : i < 6 then s.tune_seq ⟨i, h⟩ else .TUNE_COMPLETE

/-- Modelled from the spec: the abort/failure path of the Tune Sequencer
(spec 4.1): restore Original gains, set mode = Failed. -/
def fail_tune_effect (s : AutoTuneState) : AutoTuneState :=
  { load_orig_gains s with mode := .FAILED }

/-- Modelled from the spec: the UpdateGains step of the Tune Sequencer
(spec 4.1): load IntraTest gains, install the Test gains produced by the
tune-type-specific update policy together with its pass verdict, and advance
the success counter; when the counter reaches AUTOTUNE_SUCCESS_COUNT (4
consecutive acceptable iterations) the cursor moves to the next entry of the
tune sequence and the counter resets; then return to WaitingForLevel. -/
def update_gains_effect (v : Vehicle) (pass : Bool) (g : TuneGains)
    (s : AutoTuneState) : AutoTuneState :=
  let c : Int := if pass then s.counter + 1 else 0
  let s' := { load_intra_test_gains v s with
              tune := g, step := StepType.WAITING_FOR_LEVEL }
  if AUTOTUNE_SUCCESS_COUNT ≤ c then
    { s' with
      counter := 0,
      tune_seq_curr := s.tune_seq_curr + 1,
      tune_type := seq_at s (s.tune_seq_curr + 1) }
  else
    { s' with counter := c }

/-- Modelled from the spec: the Complete handling of the Tune Sequencer
(spec 4.1): when the tune sequence for the current axis has reached
TUNE_COMPLETE, mark the axis bit in `axes_completed` and either move to the
next enabled axis (restarting the sequence) or, if none remain, set
mode = Success and return to Original gains (spec 3: from Success the vehicle
flies on original gains until explicit save). -/
def axis_complete_effect (next : Option AxisType) (s : AutoTuneState) :
    AutoTuneState :=
  let s' := { s with axes_completed := s.axes_completed ||| axis_bitmask s.axis }
  match next with
  | some a =>
    { s' with axis := a, tune_seq_curr := 0, tune_type := seq_at s 0,
              counter := 0, step := StepType.WAITING_FOR_LEVEL }
  | none => { load_orig_gains s' with mode := TuneMode.SUCCESS }

/-- One tick-level operation of a tuning session, as described by spec 4.1:
the WaitingForLevel tick (with its timeout), the Testing tick (with the
safety-supervisor abort), the UpdateGains step, the per-axis Complete
handling, the pilot-override pause, and the unrecoverable failure path. -/
inductive SessionOp where
  | wait_level_tick (level_ok : Bool)
  | level_timeout
  | test_tick (done : Bool)
  | test_abort (issue : LevelIssue) (current maximum : ℚ)
  | update_gains (pass : Bool) (g : TuneGains)
  | axis_complete (next : Option AxisType)
  | pilot_override_tick (now : Nat)
  | fail_tune

/-- Modelled from the spec: the effect of one session operation on the tuner
state.  Every operation is guarded on mode = Tuning (the run loop only drives
the state machine while tuning); an operation whose guard fails leaves the
state unchanged. -/
def applyOp (v : Vehicle) (op : SessionOp) (s : AutoTuneState) : AutoTuneState :=
  if s.mode = TuneMode.TUNING then
    match op with
    | .wait_level_tick level_ok =>
      if s.step = StepType.WAITING_FOR_LEVEL then
        let s' := load_intra_test_gains v s
        if level_ok then { s' with step := StepType.TESTING } else s'
      else s
    | .level_timeout =>
      if s.step = StepType.WAITING_FOR_LEVEL then fail_tune_effect s else s
    | .test_tick done =>
      if s.step = StepType.TESTING then
        let s' := load_test_gains s
        if done then { s' with step := StepType.UPDATE_GAINS } else s'
      else s
    | .test_abort issue current maximum =>
      if s.step = StepType.TESTING then
        { load_intra_test_gains v s with
          step := StepType.WAITING_FOR_LEVEL,
          level_problem := ⟨issue, maximum, current⟩ }
      else s
    | .update_gains pass g =>
      if s.step = StepType.UPDATE_GAINS then update_gains_effect v pass g s else s
    | .axis_complete next =>
      if seq_at s s.tune_seq_curr = TuneType.TUNE_COMPLETE then
        axis_complete_effect next s
      else s
    | .pilot_override_tick now =>
      let s' := { load_intra_test_gains v s with pilot_override := true }
      if AUTOTUNE_ANNOUNCE_INTERVAL_MS ≤ now - s.last_pilot_override_warning then
        { s' with last_pilot_override_warning := now }
      else s'
    | .fail_tune => fail_tune_effect s
  else s

/-- A session: a sequence of tick-level operations applied in order. -/
def runOps (v : Vehicle) (ops : List SessionOp) (s : AutoTuneState) :
    AutoTuneState :=
  ops.foldl (fun t op => applyOp v op t) s

/-- A concrete gain set used by witness evaluations. -/
def demoGains : GainSet :=
  { roll_rp := 1/10, roll_ri := 1/10, roll_rd := 1/250, roll_rff := 0,
    roll_fltt := 20, roll_sp := 9/2, roll_accel := 110000,
    pitch_rp := 1/10, pitch_ri := 1/10, pitch_rd := 1/250, pitch_rff := 0,
    pitch_fltt := 20, pitch_sp := 9/2, pitch_accel := 110000,
    yaw_rp := 1/5, yaw_ri := 1/50, yaw_rd := 0, yaw_rff := 0, yaw_rLPF := 5,
    yaw_fltt := 20, yaw_sp := 9/2, yaw_accel := 27000,
    bf_feedforward := true }

/-- A second concrete gain set, differing from `demoGains`. -/
def demoGains' : GainSet := { demoGains with roll_rp := 3/20 }

/-- Concrete tune_* values used by witness evaluations. -/
def demoTune : TuneGains :=
  { roll_rp := 1/10, roll_rd := 1/250, roll_sp := 9/2, roll_accel := 110000,
    pitch_rp := 1/10, pitch_rd := 1/250, pitch_sp := 9/2,
    pitch_accel := 110000, yaw_rp := 1/5, yaw_rLPF := 5, yaw_sp := 9/2,
    yaw_accel := 27000, roll_rff := 0, pitch_rff := 0, yaw_rd := 0,
    yaw_rff := 0 }

/-- A concrete vehicle used by witness evaluations. -/
def demoVehicle : Vehicle :=
  { intra_test_ri := fun _ => 1/100, tuned_ri := fun _ => 1/10,
    tuned_yaw_rd := 0 }

/-- The multicopter tune sequence used by witness evaluations. -/
def demoSeq : Fin 6 → TuneType
  | 0 => .RD_UP
  | 1 => .RD_DOWN
  | 2 => .RP_UP
  | 3 => .SP_DOWN
  | 4 => .SP_UP
  | 5 => .TUNE_COMPLETE

/-- A concrete tuner state used by witness evaluations. -/
def demoState : AutoTuneState :=
  { mode := .UNINITIALISED, pilot_override := false, axis := .ROLL,
    positive_direction := false, step := .WAITING_FOR_LEVEL,
    tune_type := .RD_UP, tune_seq := demoSeq, tune_seq_curr := 0,
    axes_completed := 0, counter := 0, orig := demoGains, tune := demoTune,
    level_problem := ⟨.NONE, 0, 0⟩, last_pilot_override_warning := 0,
    live := demoGains' }

lemma applyOp_orig (v : Vehicle) (op : SessionOp) (s : AutoTuneState) :
    (applyOp v op s).orig = s.orig := by
  rcases op with ⟨lv⟩ | ⟨⟩ | ⟨d⟩ | ⟨i, c, m⟩ | ⟨p, g⟩ | ⟨_ | a⟩ | ⟨now⟩ | ⟨⟩ <;>
    simp only [applyOp, update_gains_effect, axis_complete_effect,
      fail_tune_effect, load_orig_gains, load_intra_test_gains,
      load_test_gains, seq_at] <;>
    split_ifs <;> rfl

lemma runOps_orig (v : Vehicle) (ops : List SessionOp) (s : AutoTuneState) :
    (runOps v ops s).orig = s.orig := by
  induction ops generalizing s with
  | nil => rfl
  | cons op rest ih => rw [runOps, List.foldl_cons, ← runOps, ih, applyOp_orig]

lemma applyOp_failed_live (v : Vehicle) (op : SessionOp) (s : AutoTuneState)
    (h : s.mode = TuneMode.FAILED → s.live = s.orig) :
    (applyOp v op s).mode = TuneMode.FAILED →
      (applyOp v op s).live = (applyOp v op s).orig := by
  by_cases hm : s.mode = TuneMode.TUNING
  · rcases op with ⟨lv⟩ | ⟨⟩ | ⟨d⟩ | ⟨i, c, m⟩ | ⟨p, g⟩ | ⟨_ | a⟩ | ⟨now⟩ | ⟨⟩ <;>
      simp only [applyOp, hm, if_true, update_gains_effect,
        axis_complete_effect, fail_tune_effect, load_orig_gains,
        load_intra_test_gains, load_test_gains, seq_at] <;>
      (try split_ifs) <;> intro hf <;> first | rfl | trivial | simp_all
  · simpa only [applyOp, hm, if_false] using h

lemma runOps_failed_live (v : Vehicle) (ops : List SessionOp)
    (s : AutoTuneState) (h : s.mode = TuneMode.FAILED → s.live = s.orig) :
    (runOps v ops s).mode = TuneMode.FAILED →
      (runOps v ops s).live = (runOps v ops s).orig := by
  induction ops generalizing s with
  | nil => exact h
  | cons op rest ih =>
    rw [runOps, List.foldl_cons, ← runOps]
    exact ih _ (applyOp_failed_live v op s h)

/-- Claim C1: for every sequence of session ticks after
`backup_gains_and_initialise` captured the Original snapshot, whenever the
mode has become Failed the live controller gains equal that snapshot, and
`stop()` always leaves the live gains equal to that snapshot: no partial-gain
state is left live on any failure or cancellation path. -/
theorem failed_or_stop_restores_orig (v : Vehicle) (seq : Fin 6 → TuneType)
    (a0 : AxisType) (ops : List SessionOp) (s0 : AutoTuneState) :
    ((runOps v ops (backup_gains_and_initialise seq a0 s0)).mode =
        TuneMode.FAILED →
      (runOps v ops (backup_gains_and_initialise seq a0 s0)).live =
        (backup_gains_and_initialise seq a0 s0).orig) ∧
    (stop (runOps v ops (backup_gains_and_initialise seq a0 s0))).live =
      (backup_gains_and_initialise seq a0 s0).orig := by
  constructor
  · intro hf
    have h0 : (backup_gains_and_initialise seq a0 s0).mode = TuneMode.FAILED →
        (backup_gains_and_initialise seq a0 s0).live =
          (backup_gains_and_initialise seq a0 s0).orig := by
      intro hc
      simp [backup_gains_and_initialise] at hc
    have := runOps_failed_live v ops _ h0 hf
    rwa [runOps_orig] at this
  · show (runOps v ops (backup_gains_and_initialise seq a0 s0)).orig = _
    rw [runOps_orig]

/-- Witness for C1: a concrete session in which a failure occurs; the theorem
yields that the live gains equal the snapshot taken at session start. -/
theorem failed_or_stop_restores_orig_witness :
    (runOps demoVehicle [SessionOp.fail_tune]
        (backup_gains_and_initialise demoSeq AxisType.ROLL demoState)).live =
      (backup_gains_and_initialise demoSeq AxisType.ROLL demoState).orig :=
  (failed_or_stop_restores_orig demoVehicle demoSeq AxisType.ROLL
      [SessionOp.fail_tune] demoState).1 (by decide)

/-- Claim C2: after `backup_gains_and_initialise` captures the Original gain
snapshot at tune start, no session operation ever mutates the `orig_*` fields
for the remainder of the session. -/
theorem orig_snapshot_never_mutated (v : Vehicle) (seq : Fin 6 → TuneType)
    (a0 : AxisType) (ops : List SessionOp) (s0 : AutoTuneState) :
    (runOps v ops (backup_gains_and_initialise seq a0 s0)).orig =
      (backup_gains_and_initialise seq a0 s0).orig :=
  runOps_orig v ops _

lemma applyOp_axes (v : Vehicle) (op : SessionOp) (s : AutoTuneState) :
    (applyOp v op s).axes_completed = s.axes_completed ∨
    (applyOp v op s).axes_completed =
      s.axes_completed ||| axis_bitmask s.axis := by
  rcases op with ⟨lv⟩ | ⟨⟩ | ⟨d⟩ | ⟨i, c, m⟩ | ⟨p, g⟩ | ⟨_ | a⟩ | ⟨now⟩ | ⟨⟩ <;>
    simp only [applyOp, update_gains_effect, axis_complete_effect,
      fail_tune_effect, load_orig_gains, load_intra_test_gains,
      load_test_gains, seq_at] <;>
    (try split_ifs) <;> first | (left; rfl) | (right; rfl)

lemma applyOp_axes_mono (v : Vehicle) (op : SessionOp) (s : AutoTuneState)
    (i : Nat) (h : s.axes_completed.testBit i = true) :
    (applyOp v op s).axes_completed.testBit i = true := by
  rcases applyOp_axes v op s with he | he <;> rw [he]
  · exact h
  · rw [Nat.testBit_or, h, Bool.true_or]

lemma runOps_axes_mono (v : Vehicle) (ops : List SessionOp)
    (s : AutoTuneState) (i : Nat) (h : s.axes_completed.testBit i = true) :
    (runOps v ops s).axes_completed.testBit i = true := by
  induction ops generalizing s with
  | nil => exact h
  | cons op rest ih =>
    rw [runOps, List.foldl_cons, ← runOps]
    exact ih _ (applyOp_axes_mono v op s i h)

/-- Claim C3: on every session tick the `axes_completed` bitmask is
monotonically non-decreasing (bits are only ever set, never cleared, also
across whole tick sequences), no session operation can zero a non-zero mask,
and `reset()` is what sets it to 0. -/
theorem axes_completed_monotone (v : Vehicle) (op : SessionOp)
    (ops : List SessionOp) (s : AutoTuneState) :
    (∀ i, s.axes_completed.testBit i = true →
      (applyOp v op s).axes_completed.testBit i = true) ∧
    ((applyOp v op s).axes_completed = 0 → s.axes_completed = 0) ∧
    (∀ i, s.axes_completed.testBit i = true →
      (runOps v ops s).axes_completed.testBit i = true) ∧
    (reset s).axes_completed = 0 := by
  refine ⟨applyOp_axes_mono v op s, ?_, runOps_axes_mono v ops s, rfl⟩
  intro hz
  apply Nat.eq_of_testBit_eq
  intro i
  rw [Nat.zero_testBit]
  by_contra hbit
  have hb : s.axes_completed.testBit i = true := by
    simpa using hbit
  have := applyOp_axes_mono v op s i hb
  rw [hz, Nat.zero_testBit] at this
  exact Bool.false_ne_true this

/-- A tuning-session state used by witness evaluations: roll already
completed, currently updating gains on pitch with three successes banked. -/
def demoTuning : AutoTuneState :=
  { demoState with
    mode := .TUNING, step := .UPDATE_GAINS, axis := .PITCH,
    axes_completed := 1, counter := 3 }

/-- Witness for C3: in a concrete session state with roll completed, the
completed-roll bit survives a further session operation. -/
theorem axes_completed_monotone_witness :
    (applyOp demoVehicle (SessionOp.update_gains true demoTune)
        demoTuning).axes_completed.testBit 0 = true :=
  (axes_completed_monotone demoVehicle (SessionOp.update_gains true demoTune)
      [] demoTuning).1 0 (by decide)

/-- Claim C4: an UpdateGains transition never changes the axis being tuned and
never decreases the cursor into the installed tune sequence: progression
through the tune-type sequence is forward only, with no backtracking within an
axis. -/
theorem update_gains_no_backtrack (v : Vehicle) (pass : Bool) (g : TuneGains)
    (s : AutoTuneState) :
    (applyOp v (SessionOp.update_gains pass g) s).axis = s.axis ∧
    s.tune_seq_curr ≤
      (applyOp v (SessionOp.update_gains pass g) s).tune_seq_curr := by
  simp only [applyOp, update_gains_effect, load_intra_test_gains, seq_at]
  split_ifs <;> exact ⟨rfl, by first | omega | (dsimp only; omega)⟩

/-- Claim C7: in the UpdateGains step, when the success counter reaches
AUTOTUNE_SUCCESS_COUNT (4 consecutive acceptable iterations) the cursor into
the tune sequence advances by one entry and the counter resets to zero; with
fewer than 4 consecutive successes, or a failed iteration, the cursor does not
advance. -/
theorem success_counter_gates_advance (v : Vehicle) (pass : Bool)
    (g : TuneGains) (s : AutoTuneState) (hm : s.mode = TuneMode.TUNING)
    (hs : s.step = StepType.UPDATE_GAINS) :
    (pass = true → AUTOTUNE_SUCCESS_COUNT ≤ s.counter + 1 →
      (applyOp v (SessionOp.update_gains pass g) s).tune_seq_curr =
          s.tune_seq_curr + 1 ∧
        (applyOp v (SessionOp.update_gains pass g) s).counter = 0) ∧
    (pass = true → s.counter + 1 < AUTOTUNE_SUCCESS_COUNT →
      (applyOp v (SessionOp.update_gains pass g) s).tune_seq_curr =
          s.tune_seq_curr ∧
        (applyOp v (SessionOp.update_gains pass g) s).counter =
          s.counter + 1) ∧
    (pass = false →
      (applyOp v (SessionOp.update_gains pass g) s).tune_seq_curr =
          s.tune_seq_curr ∧
        (applyOp v (SessionOp.update_gains pass g) s).counter = 0) := by
  simp only [applyOp, hm, hs, if_true, update_gains_effect,
    load_intra_test_gains]
  refine ⟨?_, ?_, ?_⟩
  · intro hp h4
    subst hp
    simp only [if_true, if_pos h4]
    constructor <;> first | rfl | trivial
  · intro hp h4
    subst hp
    simp only [if_true]
    rw [if_neg (by omega)]
    constructor <;> rfl
  · intro hp
    subst hp
    simp only [Bool.false_eq_true, if_false]
    rw [if_neg (by simp [AUTOTUNE_SUCCESS_COUNT])]
    constructor <;> rfl

/-- Witness for C7: a fourth consecutive success in a concrete UpdateGains
state advances the tune-sequence cursor and clears the counter. -/
theorem success_counter_gates_advance_witness :
    (applyOp demoVehicle (SessionOp.update_gains true demoTune)
        demoTuning).tune_seq_curr = demoTuning.tune_seq_curr + 1 ∧
      (applyOp demoVehicle (SessionOp.update_gains true demoTune)
        demoTuning).counter = 0 :=
  (success_counter_gates_advance demoVehicle true demoTune demoTuning rfl
      rfl).1 rfl (by decide)

/-- Modelled from the spec: `check_level(issue, current, maximum)`
(AC_AutoTune.h line 232-233, body not in the snapshot): records and returns
true if `current` exceeds `maximum`, recording the offending LevelIssue kind
and the current/maximum values in the `level_problem` structure (latest
violation wins: the record is overwritten, not queued); otherwise the recorded
problem is left unchanged.  The pair returned is (result, updated record). -/
def check_level (issue : LevelIssue) (current maximum : ℚ)
    (lp : LevelProblem) : Bool × LevelProblem :=
  if maximum < current then (true, ⟨issue, maximum, current⟩) else (false, lp)

/-- Claim C5: `check_level` returns true iff `current > maximum`; whenever it
returns true it overwrites the level problem with exactly that issue and those
current/maximum values, whatever was recorded before; when it returns false
the record is untouched. -/
theorem check_level_spec (issue : LevelIssue) (current maximum : ℚ)
    (lp : LevelProblem) :
    ((check_level issue current maximum lp).1 = true ↔ maximum < current) ∧
    ((check_level issue current maximum lp).1 = true →
      (check_level issue current maximum lp).2 =
        ⟨issue, maximum, current⟩) ∧
    ((check_level issue current maximum lp).1 = false →
      (check_level issue current maximum lp).2 = lp) := by
  by_cases h : maximum < current <;> simp [check_level, h]

/-- Witness for C5: a concrete violating call: current 2 exceeds maximum 1, so
the call reports true and the previous record is overwritten with the
RATE_ROLL issue and values (1, 2). -/
theorem check_level_spec_witness :
    (check_level LevelIssue.RATE_ROLL 2 1 ⟨LevelIssue.NONE, 0, 0⟩).2 =
      ⟨LevelIssue.RATE_ROLL, 1, 2⟩ :=
  (check_level_spec LevelIssue.RATE_ROLL 2 1 ⟨LevelIssue.NONE, 0, 0⟩).2.1
    (by decide)

/-- Modelled from the spec: the times at which a pilot-override warning is
emitted across a sequence of override ticks (spec 4.4: a warning is reported
at a rate-limited interval).  The input list holds the timestamps (ms) of the
ticks during which pilot override is active; `last` threads the
`last_pilot_override_warning` field: a warning is emitted only when at least
AUTOTUNE_ANNOUNCE_INTERVAL_MS has elapsed since the last one, and emitting
records the current time. -/
def override_warnings : List Nat → Nat → List Nat
  | [], _ => []
  | now :: rest, last =>
    if AUTOTUNE_ANNOUNCE_INTERVAL_MS ≤ now - last then
      now :: override_warnings rest now
    else
      override_warnings rest last

lemma override_warnings_ge (ticks : List Nat) (last : Nat) :
    ∀ t ∈ override_warnings ticks last,
      last + AUTOTUNE_ANNOUNCE_INTERVAL_MS ≤ t := by
  induction ticks generalizing last with
  | nil => intro t ht; simp [override_warnings] at ht
  | cons now rest ih =>
    intro t ht
    rw [override_warnings] at ht
    split_ifs at ht with hg
    · rcases List.mem_cons.mp ht with rfl | hmem
      · simp only [AUTOTUNE_ANNOUNCE_INTERVAL_MS] at hg ⊢
        omega
      · have h1 := ih now t hmem
        simp only [AUTOTUNE_ANNOUNCE_INTERVAL_MS] at hg h1 ⊢
        omega
    · exact ih last t ht

lemma override_warnings_pairwise (ticks : List Nat) (last : Nat) :
    (override_warnings ticks last).Pairwise
      (fun a b => a + AUTOTUNE_ANNOUNCE_INTERVAL_MS ≤ b) := by
  induction ticks generalizing last with
  | nil => simp [override_warnings]
  | cons now rest ih =>
    rw [override_warnings]
    split_ifs with hg
    · exact List.Pairwise.cons (override_warnings_ge rest now) (ih now)
    · exact ih last

lemma countP_window_le_one (l : List Nat) (w : Nat)
    (hl : l.Pairwise (fun a b => a + AUTOTUNE_ANNOUNCE_INTERVAL_MS ≤ b)) :
    l.countP
      (fun t => decide (w ≤ t ∧ t < w + AUTOTUNE_ANNOUNCE_INTERVAL_MS)) ≤ 1 := by
  induction l with
  | nil => simp
  | cons a l ih =>
    rcases List.pairwise_cons.mp hl with ⟨ha, hl'⟩
    rw [List.countP_cons]
    by_cases hw : w ≤ a ∧ a < w + AUTOTUNE_ANNOUNCE_INTERVAL_MS
    · have hz : l.countP
          (fun t => decide (w ≤ t ∧ t < w + AUTOTUNE_ANNOUNCE_INTERVAL_MS))
          = 0 := by
        rw [List.countP_eq_zero]
        intro b hb
        have hab := ha b hb
        simp only [decide_eq_true_eq, not_and, not_lt]
        intro _
        simp only [AUTOTUNE_ANNOUNCE_INTERVAL_MS] at hab hw ⊢
        omega
      rw [hz]
      simp [hw]
    · have : (decide (w ≤ a ∧ a < w + AUTOTUNE_ANNOUNCE_INTERVAL_MS)) = false :=
        decide_eq_false hw
      rw [this]
      simpa using ih hl'

/-- Claim C8: across any sequence of override ticks, at most one
pilot-override warning is emitted within any window of
AUTOTUNE_ANNOUNCE_INTERVAL_MS (2000 ms): warnings are rate limited and never
emitted faster than the configured interval. -/
theorem override_warning_rate_limited (ticks : List Nat) (last w : Nat) :
    (override_warnings ticks last).countP
      (fun t => decide (w ≤ t ∧ t < w + AUTOTUNE_ANNOUNCE_INTERVAL_MS)) ≤ 1 :=
  countP_window_le_one (override_warnings ticks last) w
    (override_warnings_pairwise ticks last)

/-- The dwell-test telemetry buffers of AC_AutoTune.h lines 382-386:
`test_gain[20]`, `test_freq[20]`, `test_phase[20]` and the `freq_cnt`
cursor.  The arrays are indexed by `Fin 20`, so every access is within
bounds 0..19 by construction. -/
structure DwellTelemetry where
  test_gain : Fin 20 → ℚ
  test_freq : Fin 20 → ℚ
  test_phase : Fin 20 → ℚ
  freq_cnt : Nat
deriving DecidableEq

/-- Modelled from the spec: clearing the telemetry buffers at the start of
each dwell test (`dwell_test_init`, body not in the snapshot; spec 3: the
buffers are cleared at the start of each dwell test). -/
def dwell_test_init_buffers : DwellTelemetry :=
  { test_gain := fun _ => 0, test_freq := fun _ => 0,
    test_phase := fun _ => 0, freq_cnt := 0 }

/-- Modelled from the spec: recording one {gain, frequency, phase} sample of a
dwell sweep at the `freq_cnt` cursor (`dwell_test_run`, body not in the
snapshot).  Spec design note on the fixed-size arrays: the buffers saturate at
capacity rather than wrapping, so a sample arriving with the buffers full is
dropped. -/
def dwell_record_sample (g f p : ℚ) (b : DwellTelemetry) : DwellTelemetry :=
  if h : b.freq_cnt < 20 then
    { test_gain := Function.update b.test_gain ⟨b.freq_cnt, h⟩ g,
      test_freq := Function.update b.test_freq ⟨b.freq_cnt, h⟩ f,
      test_phase := Function.update b.test_phase ⟨b.freq_cnt, h⟩ p,
      freq_cnt := b.freq_cnt + 1 }
  else b

/-- Claim C9: the dwell telemetry buffers have fixed capacity 20 and writes
stay within bounds: the cursor never exceeds 20, a write with the buffers full
is dropped (saturation, no wrap-around), a write only touches the entry at the
cursor, and the buffers are cleared (cursor zero, entries zero) at the start
of each dwell test. -/
theorem dwell_buffers_bounded (g f p : ℚ) (b : DwellTelemetry) (i : Fin 20) :
    (b.freq_cnt ≤ 20 → (dwell_record_sample g f p b).freq_cnt ≤ 20) ∧
    (20 ≤ b.freq_cnt → dwell_record_sample g f p b = b) ∧
    ((i : Nat) ≠ b.freq_cnt →
      (dwell_record_sample g f p b).test_gain i = b.test_gain i ∧
      (dwell_record_sample g f p b).test_freq i = b.test_freq i ∧
      (dwell_record_sample g f p b).test_phase i = b.test_phase i) ∧
    dwell_test_init_buffers.freq_cnt = 0 ∧
    dwell_test_init_buffers.test_gain i = 0 ∧
    dwell_test_init_buffers.test_freq i = 0 ∧
    dwell_test_init_buffers.test_phase i = 0 := by
  refine ⟨?_, ?_, ?_, rfl, rfl, rfl, rfl⟩
  · intro hle
    rw [dwell_record_sample]
    split_ifs with h
    · dsimp only
      omega
    · exact hle
  · intro hge
    rw [dwell_record_sample]
    rw [dif_neg (by omega)]
  · intro hne
    rw [dwell_record_sample]
    split_ifs with h
    · refine ⟨?_, ?_, ?_⟩ <;>
        exact Function.update_noteq (fun hc => hne (by rw [hc])) _ _
    · exact ⟨rfl, rfl, rfl⟩

/-- Witness for C9: with the buffers already full (cursor 20), recording a
further sample leaves them unchanged. -/
theorem dwell_buffers_bounded_witness :
    dwell_record_sample 1 2 3 { dwell_test_init_buffers with freq_cnt := 20 } =
      { dwell_test_init_buffers with freq_cnt := 20 } :=
  (dwell_buffers_bounded 1 2 3
      { dwell_test_init_buffers with freq_cnt := 20 } 0).2.1 (by decide)

/-- The accumulator state of the dwell response estimator: the running
single-frequency correlations of the measured and target streams against the
reference sine/cosine basis, plus the number of samples accumulated.
`determine_gain` / `determine_gain_angle` (AC_AutoTune.h lines 369-373, bodies
not in the snapshot) maintain this between ticks. -/
structure DwellAccum where
  meas_s : ℝ
  meas_c : ℝ
  tgt_s : ℝ
  tgt_c : ℝ
  sample_count : ℕ

/-- Modelled from the spec: `funct_reset` clears all accumulators to start a
fresh measurement window (spec 4.3). -/
def funct_reset_accum : DwellAccum :=
  { meas_s := 0, meas_c := 0, tgt_s := 0, tgt_c := 0, sample_count := 0 }

/-- Modelled from the spec: one tick of `determine_gain` (spec 4.3): online
correlation of the target and measured signals against reference sine/cosine
basis functions at the excitation frequency, accumulated incrementally across
samples; `th` is the phase advanced per tick (excitation frequency times tick
period, in radians). -/
noncomputable def determine_gain_step (th tgt meas : ℝ) (a : DwellAccum) :
    DwellAccum :=
  { meas_s := a.meas_s + meas * Real.sin (th * a.sample_count),
    meas_c := a.meas_c + meas * Real.cos (th * a.sample_count),
    tgt_s := a.tgt_s + tgt * Real.sin (th * a.sample_count),
    tgt_c := a.tgt_c + tgt * Real.cos (th * a.sample_count),
    sample_count := a.sample_count + 1 }

/-- Modelled from the spec: `determine_gain` run for a number of ticks on a
target and measured sample stream, starting from a fresh window. -/
noncomputable def determine_gain_run (th : ℝ) (tgt meas : ℕ → ℝ) :
    ℕ → DwellAccum
  | 0 => funct_reset_accum
  | n + 1 => determine_gain_step th (tgt n) (meas n)
      (determine_gain_run th tgt meas n)

/-- Modelled from the spec: `determine_gain_angle` applies the same
single-frequency correlation to the angle-loop command/target/measured
streams (spec 4.3 describes both estimators by the one mechanism); the
`command` stream feeds only the max-acceleration output, which is not part of
the gain/phase estimate. -/
noncomputable def determine_gain_angle_run (th : ℝ) (_command tgt meas : ℕ → ℝ) :
    ℕ → DwellAccum :=
  determine_gain_run th tgt meas

/-- Modelled from the spec: the estimated amplitude ratio (gain) of measured
over target response: the quotient of the correlation magnitudes. -/
noncomputable def accum_gain (a : DwellAccum) : ℝ :=
  Real.sqrt (a.meas_s ^ 2 + a.meas_c ^ 2) /
    Real.sqrt (a.tgt_s ^ 2 + a.tgt_c ^ 2)

/-- Modelled from the spec: the estimated phase of the measured response
relative to the target, from the angles of the two correlation vectors. -/
noncomputable def accum_phase (a : DwellAccum) : ℝ :=
  Complex.arg (a.meas_s + a.meas_c * Complex.I) -
    Complex.arg (a.tgt_s + a.tgt_c * Complex.I)

/-- Modelled from the spec: `cycles_complete` is declared once the window has
accumulated over AUTOTUNE_DWELL_CYCLES oscillation periods; with
`samples_per_cycle` ticks per period that is 6 * samples_per_cycle ticks. -/
def dwell_cycles_complete (samples_per_cycle n : ℕ) : Bool :=
  decide (AUTOTUNE_DWELL_CYCLES * samples_per_cycle ≤ n)

lemma determine_gain_run_closed (th : ℝ) (tgt meas : ℕ → ℝ) (n : ℕ) :
    determine_gain_run th tgt meas n =
      { meas_s := ∑ k in Finset.range n, meas k * Real.sin (th * k),
        meas_c := ∑ k in Finset.range n, meas k * Real.cos (th * k),
        tgt_s := ∑ k in Finset.range n, tgt k * Real.sin (th * k),
        tgt_c := ∑ k in Finset.range n, tgt k * Real.cos (th * k),
        sample_count := n } := by
  induction n with
  | zero => simp [determine_gain_run, funct_reset_accum]
  | succ n ih =>
    rw [determine_gain_run, ih, determine_gain_step]
    simp [Finset.sum_range_succ]

lemma sum_exp_ne_one_eq_zero (x : ℝ) (M : ℕ)
    (hx : Complex.exp (x * Complex.I) ≠ 1)
    (hM : Complex.exp (x * Complex.I) ^ M = 1) :
    ∑ k in Finset.range M, Complex.exp ((x * k : ℝ) * Complex.I) = 0 := by
  have h1 : ∀ k : ℕ, Complex.exp ((x * k : ℝ) * Complex.I)
      = Complex.exp (x * Complex.I) ^ k := by
    intro k
    rw [← Complex.exp_nat_mul]
    congr 1
    push_cast
    ring
  simp_rw [h1]
  rw [geom_sum_eq hx, hM]
  simp

lemma exp_two_theta_ne_one (N : ℕ) (hN : 3 ≤ N) :
    Complex.exp ((2 * (2 * Real.pi / N) : ℝ) * Complex.I) ≠ 1 := by
  have hNR : (3 : ℝ) ≤ (N : ℝ) := by exact_mod_cast hN
  have hpi := Real.pi_pos
  have hx1 : 0 < 2 * (2 * Real.pi / N) := by positivity
  have hx2 : 2 * (2 * Real.pi / N) < 2 * Real.pi := by
    have hNpos : (0 : ℝ) < (N : ℝ) := by linarith
    rw [mul_comm, div_mul_eq_mul_div, div_lt_iff₀ hNpos]
    nlinarith
  intro h
  rw [Complex.exp_eq_one_iff] at h
  obtain ⟨n, hn⟩ := h
  have hn' : ((2 * (2 * Real.pi / N) : ℝ) : ℂ) = (n : ℂ) * (2 * Real.pi) := by
    have hI : (Complex.I : ℂ) ≠ 0 := Complex.I_ne_zero
    apply mul_right_cancel₀ hI
    rw [hn]
    ring
  have hreal : 2 * (2 * Real.pi / N) = (n : ℝ) * (2 * Real.pi) := by
    exact_mod_cast hn'
  have hn0 : (0 : ℝ) < (n : ℝ) := by nlinarith
  have hn1 : (n : ℝ) < 1 := by nlinarith
  have h0 : (0 : ℤ) < n := by exact_mod_cast hn0
  have h1' : n < 1 := by exact_mod_cast hn1
  omega

lemma exp_two_theta_pow (N : ℕ) (hN : 3 ≤ N) :
    Complex.exp ((2 * (2 * Real.pi / N) : ℝ) * Complex.I) ^ (6 * N) = 1 := by
  have hN0 : (N : ℝ) ≠ 0 := by
    have : 0 < N := by omega
    exact_mod_cast this.ne'
  rw [← Complex.exp_nat_mul, Complex.exp_eq_one_iff]
  refine ⟨12, ?_⟩
  have hN0' : (N : ℂ) ≠ 0 := by exact_mod_cast hN0
  push_cast
  field_simp
  ring

lemma sum_cos_two_theta (N : ℕ) (hN : 3 ≤ N) :
    ∑ k in Finset.range (6 * N),
      Real.cos (2 * (2 * Real.pi / N) * k) = 0 := by
  have h0 := sum_exp_ne_one_eq_zero (2 * (2 * Real.pi / N)) (6 * N)
    (exp_two_theta_ne_one N hN) (exp_two_theta_pow N hN)
  have hre : (∑ k in Finset.range (6 * N),
      Complex.exp ((2 * (2 * Real.pi / N) * k : ℝ) * Complex.I)).re = 0 := by
    rw [h0]
    rfl
  rw [Complex.re_sum] at hre
  simpa only [Complex.exp_ofReal_mul_I_re] using hre

lemma sum_sin_two_theta (N : ℕ) (hN : 3 ≤ N) :
    ∑ k in Finset.range (6 * N),
      Real.sin (2 * (2 * Real.pi / N) * k) = 0 := by
  have h0 := sum_exp_ne_one_eq_zero (2 * (2 * Real.pi / N)) (6 * N)
    (exp_two_theta_ne_one N hN) (exp_two_theta_pow N hN)
  have him : (∑ k in Finset.range (6 * N),
      Complex.exp ((2 * (2 * Real.pi / N) * k : ℝ) * Complex.I)).im = 0 := by
    rw [h0]
    rfl
  rw [Complex.im_sum] at him
  simpa only [Complex.exp_ofReal_mul_I_im] using him

lemma sum_sin_sq_theta (N : ℕ) (hN : 3 ≤ N) :
    ∑ k in Finset.range (6 * N),
      Real.sin (2 * Real.pi / N * k) ^ 2 = 3 * N := by
  have hc := sum_cos_two_theta N hN
  have h1 : ∀ k : ℕ, Real.sin (2 * Real.pi / N * k) ^ 2
      = 1 / 2 - Real.cos (2 * (2 * Real.pi / N) * k) / 2 := by
    intro k
    rw [Real.sin_sq_eq_half_sub]
    ring_nf
  simp_rw [h1]
  rw [Finset.sum_sub_distrib]
  have h2 : ∑ x in Finset.range (6 * N),
      Real.cos (2 * (2 * Real.pi / N) * x) / 2 = 0 := by
    rw [← Finset.sum_div, hc, zero_div]
  rw [h2, sub_zero, Finset.sum_const, Finset.card_range, nsmul_eq_mul]
  push_cast
  ring

lemma sum_cos_sq_theta (N : ℕ) (hN : 3 ≤ N) :
    ∑ k in Finset.range (6 * N),
      Real.cos (2 * Real.pi / N * k) ^ 2 = 3 * N := by
  have hc := sum_cos_two_theta N hN
  have h1 : ∀ k : ℕ, Real.cos (2 * Real.pi / N * k) ^ 2
      = 1 / 2 + Real.cos (2 * (2 * Real.pi / N) * k) / 2 := by
    intro k
    rw [Real.cos_sq]
    ring_nf
  simp_rw [h1]
  rw [Finset.sum_add_distrib]
  have h2 : ∑ x in Finset.range (6 * N),
      Real.cos (2 * (2 * Real.pi / N) * x) / 2 = 0 := by
    rw [← Finset.sum_div, hc, zero_div]
  rw [h2, add_zero, Finset.sum_const, Finset.card_range, nsmul_eq_mul]
  push_cast
  ring

lemma sum_sin_cos_theta (N : ℕ) (hN : 3 ≤ N) :
    ∑ k in Finset.range (6 * N),
      Real.sin (2 * Real.pi / N * k) * Real.cos (2 * Real.pi / N * k) = 0 := by
  have hs := sum_sin_two_theta N hN
  have h1 : ∀ k : ℕ,
      Real.sin (2 * Real.pi / N * k) * Real.cos (2 * Real.pi / N * k)
        = Real.sin (2 * (2 * Real.pi / N) * k) / 2 := by
    intro k
    rw [mul_assoc, Real.sin_two_mul]
    ring
  simp_rw [h1]
  rw [← Finset.sum_div, hs]
  simp

lemma meas_s_sum (Am phi : ℝ) (N : ℕ) (hN : 3 ≤ N) :
    ∑ k in Finset.range (6 * N),
      Am * Real.sin (2 * Real.pi / N * k + phi) * Real.sin (2 * Real.pi / N * k)
      = Am * Real.cos phi * (3 * N) := by
  have h1 : ∀ k : ℕ,
      Am * Real.sin (2 * Real.pi / N * k + phi) * Real.sin (2 * Real.pi / N * k)
        = Am * Real.cos phi * Real.sin (2 * Real.pi / N * k) ^ 2
          + Am * Real.sin phi *
            (Real.sin (2 * Real.pi / N * k) * Real.cos (2 * Real.pi / N * k)) := by
    intro k
    rw [Real.sin_add]
    ring
  simp_rw [h1]
  rw [Finset.sum_add_distrib, ← Finset.mul_sum, ← Finset.mul_sum,
    sum_sin_sq_theta N hN, sum_sin_cos_theta N hN]
  ring

lemma meas_c_sum (Am phi : ℝ) (N : ℕ) (hN : 3 ≤ N) :
    ∑ k in Finset.range (6 * N),
      Am * Real.sin (2 * Real.pi / N * k + phi) * Real.cos (2 * Real.pi / N * k)
      = Am * Real.sin phi * (3 * N) := by
  have h1 : ∀ k : ℕ,
      Am * Real.sin (2 * Real.pi / N * k + phi) * Real.cos (2 * Real.pi / N * k)
        = Am * Real.cos phi *
            (Real.sin (2 * Real.pi / N * k) * Real.cos (2 * Real.pi / N * k))
          + Am * Real.sin phi * Real.cos (2 * Real.pi / N * k) ^ 2 := by
    intro k
    rw [Real.sin_add]
    ring
  simp_rw [h1]
  rw [Finset.sum_add_distrib, ← Finset.mul_sum, ← Finset.mul_sum,
    sum_cos_sq_theta N hN, sum_sin_cos_theta N hN]
  ring

lemma tgt_s_sum (At : ℝ) (N : ℕ) (hN : 3 ≤ N) :
    ∑ k in Finset.range (6 * N),
      At * Real.sin (2 * Real.pi / N * k) * Real.sin (2 * Real.pi / N * k)
      = At * (3 * N) := by
  have h1 : ∀ k : ℕ,
      At * Real.sin (2 * Real.pi / N * k) * Real.sin (2 * Real.pi / N * k)
        = At * Real.sin (2 * Real.pi / N * k) ^ 2 := by
    intro k
    ring
  simp_rw [h1]
  rw [← Finset.mul_sum, sum_sin_sq_theta N hN]

lemma tgt_c_sum (At : ℝ) (N : ℕ) (hN : 3 ≤ N) :
    ∑ k in Finset.range (6 * N),
      At * Real.sin (2 * Real.pi / N * k) * Real.cos (2 * Real.pi / N * k)
      = 0 := by
  have h1 : ∀ k : ℕ,
      At * Real.sin (2 * Real.pi / N * k) * Real.cos (2 * Real.pi / N * k)
        = At * (Real.sin (2 * Real.pi / N * k) * Real.cos (2 * Real.pi / N * k)) := by
    intro k
    ring
  simp_rw [h1]
  rw [← Finset.mul_sum, sum_sin_cos_theta N hN, mul_zero]

/-- The estimator accumulator after running `determine_gain` for
AUTOTUNE_DWELL_CYCLES full periods on a pure sine target of amplitude `At` and
a pure sine response of amplitude `Am` leading the target by phase `phi`, both
at the excitation frequency, sampled `N` times per period. -/
noncomputable def pure_sine_accum (At Am phi : ℝ) (N : ℕ) : DwellAccum :=
  determine_gain_run (2 * Real.pi / N)
    (fun k => At * Real.sin (2 * Real.pi / N * k))
    (fun k => Am * Real.sin (2 * Real.pi / N * k + phi))
    (AUTOTUNE_DWELL_CYCLES * N)

lemma pure_sine_accum_eq (At Am phi : ℝ) (N : ℕ) (hN : 3 ≤ N) :
    pure_sine_accum At Am phi N =
      { meas_s := Am * Real.cos phi * (3 * N),
        meas_c := Am * Real.sin phi * (3 * N),
        tgt_s := At * (3 * N),
        tgt_c := 0,
        sample_count := 6 * N } := by
  rw [pure_sine_accum, determine_gain_run_closed]
  have h6 : AUTOTUNE_DWELL_CYCLES * N = 6 * N := rfl
  rw [h6]
  congr 1
  · exact meas_s_sum Am phi N hN
  · exact meas_c_sum Am phi N hN
  · exact tgt_s_sum At N hN
  · exact tgt_c_sum At N hN

/-- Claim C6: on a synthetic pure-sine input stream at the test frequency —
target amplitude `At`, measured amplitude `Am`, injected phase `phi`, sampled
`N` times per oscillation period — `determine_gain` (and, with the same
correlation core, `determine_gain_angle`) declares the window complete exactly
at the configured AUTOTUNE_DWELL_CYCLES (6) oscillation cycles, and the
reported gain and phase equal the injected amplitude ratio `Am / At` and phase
`phi` exactly, in particular within the ±2% tolerance. -/
theorem determine_gain_pure_sine (At Am phi : ℝ) (N : ℕ) (hAt : 0 < At)
    (hAm : 0 < Am) (hphi : phi ∈ Set.Ioc (-Real.pi) Real.pi) (hN : 3 ≤ N) :
    dwell_cycles_complete N (pure_sine_accum At Am phi N).sample_count = true ∧
    accum_gain (pure_sine_accum At Am phi N) = Am / At ∧
    |accum_gain (pure_sine_accum At Am phi N) - Am / At| ≤
      2 / 100 * (Am / At) ∧
    accum_phase (pure_sine_accum At Am phi N) = phi ∧
    accum_gain (determine_gain_angle_run (2 * Real.pi / N)
        (fun k => At * Real.sin (2 * Real.pi / N * k))
        (fun k => At * Real.sin (2 * Real.pi / N * k))
        (fun k => Am * Real.sin (2 * Real.pi / N * k + phi))
        (AUTOTUNE_DWELL_CYCLES * N)) = Am / At ∧
    accum_phase (determine_gain_angle_run (2 * Real.pi / N)
        (fun k => At * Real.sin (2 * Real.pi / N * k))
        (fun k => At * Real.sin (2 * Real.pi / N * k))
        (fun k => Am * Real.sin (2 * Real.pi / N * k + phi))
        (AUTOTUNE_DWELL_CYCLES * N)) = phi := by
  have hNR : (3 : ℝ) ≤ (N : ℝ) := by exact_mod_cast hN
  have hK : (0 : ℝ) < 3 * N := by linarith
  have heq := pure_sine_accum_eq At Am phi N hN
  have hcc : dwell_cycles_complete N
      (pure_sine_accum At Am phi N).sample_count = true := by
    rw [heq]
    simp [dwell_cycles_complete, AUTOTUNE_DWELL_CYCLES]
  have hgain : accum_gain (pure_sine_accum At Am phi N) = Am / At := by
    rw [heq, accum_gain]
    dsimp only
    have h1 : (Am * Real.cos phi * (3 * (N:ℝ))) ^ 2 +
        (Am * Real.sin phi * (3 * (N:ℝ))) ^ 2 = (Am * (3 * (N:ℝ))) ^ 2 := by
      have h1' : (Am * Real.cos phi * (3 * (N:ℝ))) ^ 2 +
          (Am * Real.sin phi * (3 * (N:ℝ))) ^ 2
          = (Am * (3 * (N:ℝ))) ^ 2 *
              (Real.sin phi ^ 2 + Real.cos phi ^ 2) := by
        ring
      rw [h1', Real.sin_sq_add_cos_sq, mul_one]
    have h2 : (At * (3 * (N:ℝ))) ^ 2 + (0:ℝ) ^ 2 = (At * (3 * (N:ℝ))) ^ 2 := by
      ring
    rw [h1, h2, Real.sqrt_sq (by positivity), Real.sqrt_sq (by positivity)]
    rw [mul_div_mul_right _ _ (ne_of_gt hK)]
  have hphase : accum_phase (pure_sine_accum At Am phi N) = phi := by
    rw [heq, accum_phase]
    dsimp only
    have htgt : Complex.arg (((At * (3 * (N:ℝ)) : ℝ) : ℂ) +
        ((0:ℝ) : ℂ) * Complex.I) = 0 := by
      simp only [Complex.ofReal_zero, zero_mul, add_zero]
      exact Complex.arg_ofReal_of_nonneg (by positivity)
    have hmeas : Complex.arg (((Am * Real.cos phi * (3 * (N:ℝ)) : ℝ) : ℂ) +
        ((Am * Real.sin phi * (3 * (N:ℝ)) : ℝ) : ℂ) * Complex.I) = phi := by
      have hsc : ((Am * Real.cos phi * (3 * (N:ℝ)) : ℝ) : ℂ) +
          ((Am * Real.sin phi * (3 * (N:ℝ)) : ℝ) : ℂ) * Complex.I
          = ((Am * (3 * (N:ℝ)) : ℝ) : ℂ) *
              (Complex.cos phi + Complex.sin phi * Complex.I) := by
        rw [← Complex.ofReal_cos, ← Complex.ofReal_sin]
        push_cast
        ring
      rw [hsc, Complex.arg_real_mul _ (by positivity),
        Complex.arg_cos_add_sin_mul_I hphi]
    rw [hmeas, htgt, sub_zero]
  have hangle : determine_gain_angle_run (2 * Real.pi / N)
      (fun k => At * Real.sin (2 * Real.pi / N * k))
      (fun k => At * Real.sin (2 * Real.pi / N * k))
      (fun k => Am * Real.sin (2 * Real.pi / N * k + phi))
      (AUTOTUNE_DWELL_CYCLES * N) = pure_sine_accum At Am phi N := rfl
  refine ⟨hcc, hgain, ?_, hphase, ?_, ?_⟩
  · rw [hgain, sub_self, abs_zero]
    positivity
  · rw [hangle]
    exact hgain
  · rw [hangle]
    exact hphase

/-- Witness for C6: the theorem applied at the concrete input At = 1, Am = 1,
phi = 0, N = 3: the estimator reports gain 1 / 1 and phase 0 exactly. -/
theorem determine_gain_pure_sine_witness :
    accum_gain (pure_sine_accum 1 1 0 3) = 1 / 1 ∧
    accum_phase (pure_sine_accum 1 1 0 3) = 0 :=
  ⟨(determine_gain_pure_sine 1 1 0 3 one_pos one_pos
      (Set.mem_Ioc.mpr ⟨neg_lt_zero.mpr Real.pi_pos, Real.pi_nonneg⟩)
      (le_refl 3)).2.1,
   (determine_gain_pure_sine 1 1 0 3 one_pos one_pos
      (Set.mem_Ioc.mpr ⟨neg_lt_zero.mpr Real.pi_pos, Real.pi_nonneg⟩)
      (le_refl 3)).2.2.2.1⟩

end AC_AutoTune
